import Mathlib

/-!
Shallow embedding of the core of `macos-persist-scan`: the scan
orchestrator (`pkg/scanner`: `Orchestrator.RunScan`) and the risk engine
(`pkg/risk`: `Engine.AssessRisk`, `Engine.scoreToRiskLevel`), together
with the data model they operate on (`pkg/scanner/types.go`).

Modelling conventions:
- Go `float64` fields (scores, confidences) are embedded as `ℚ`; the
  arithmetic the claims are about (sums, products, division, comparisons
  against the constants 0.2/0.4/0.6/0.8) is exact on the inputs involved,
  and `ℚ` keeps every definition executable and decidable.  Division in
  `ℚ` is total with `x / 0 = 0`; where a claim is about a zero divisor we
  state the divisor itself.
- `time.Time` fields (`StartTime`, `EndTime`, `Duration`, `CreatedAt`,
  `ModifiedAt`, `ScanError.Timestamp`) and `RawData` are wall-clock and
  dynamically typed respectively and are outside the embedding; no claim
  depends on them.
- Go string-backed enums (`MechanismType`, `RiskLevel`) are embedded as
  `String`, as in the source, so that the zero value `""` of `RiskLevel`
  is representable (items carry it before risk assessment).
- A probe (`Scanner` interface) is its fixed per-run outcome: a
  `MechanismType` plus either an entry list or an error string, exactly
  the data `RunScan` consumes.  A heuristic is its `Analyze` function.
- The concurrent branch of `RunScan` has every goroutine perform one
  mutex-guarded append (its whole entry batch, or its one error), so a
  parallel run is a sequential merge over some completion order of the
  scanners; theorems quantify over that order as a permutation of the
  configured scanner list.
-/

namespace PersistScan

/-- `scanner.MechanismType` is a string type in the source. -/
abbrev MechanismType := String

/-- `scanner.RiskLevel` is a string type in the source; its zero value is `""`. -/
abbrev RiskLevel := String

def RiskInfo : RiskLevel := "Info"
def RiskLow : RiskLevel := "Low"
def RiskMedium : RiskLevel := "Medium"
def RiskHigh : RiskLevel := "High"
def RiskCritical : RiskLevel := "Critical"

/-- `scanner.HeuristicResult`: one heuristic's verdict on one entry. -/
structure HeuristicResult where
  name : String
  triggered : Bool
  score : ℚ
  confidence : ℚ
  details : String
deriving DecidableEq, Repr

/-- `scanner.RiskAssessment`: the aggregated opinion for one entry. -/
structure RiskAssessment where
  level : RiskLevel
  score : ℚ
  confidence : ℚ
  reasons : List String
  heuristics : List HeuristicResult
deriving DecidableEq, Repr

/-- The Go zero value of `RiskAssessment`, carried by every entry a probe
returns before the caller runs the risk engine (`main.go` assigns
`Items[i].Risk` only after `RunScan` returns). -/
def zeroRiskAssessment : RiskAssessment :=
  { level := "", score := 0, confidence := 0, reasons := [], heuristics := [] }

/-- `scanner.PersistenceItem` (fields the core consumes; `CreatedAt`,
`ModifiedAt` and `RawData` are wall-clock / dynamically typed and no claim
touches them). -/
structure PersistenceItem where
  id : String
  mechanism : MechanismType
  label : String
  path : String
  program : String
  programArgs : List String
  user : String
  runAtLoad : Bool
  keepAlive : Bool
  disabled : Bool
  fileMode : String
  risk : RiskAssessment
  errors : List String
deriving DecidableEq, Repr

/-- `scanner.ScanError`: records one probe's total failure (`Timestamp`
is wall-clock and omitted; `Path` is never set by `RunScan`). -/
structure ScanError where
  mechanism : MechanismType
  error : String
deriving DecidableEq, Repr

/-- `scanner.ScanResult` (the timestamp/duration fields are wall-clock
and omitted).  `riskSummary` embeds the Go map `map[RiskLevel]int` as an
association list in key-insertion order; Go map iteration order is
unspecified, but emptiness, key membership and per-key counts — all the
claims touch — are order-independent. -/
structure ScanResult where
  items : List PersistenceItem
  totalItems : Nat
  riskSummary : List (RiskLevel × Nat)
  errors : List ScanError
deriving DecidableEq, Repr

/-- A `scanner.Scanner` as `RunScan` sees it for one run: its mechanism
kind (`Type()`) and the fixed outcome of its `Scan()` call. -/
structure Scanner where
  type : MechanismType
  scan : Except String (List PersistenceItem)

/-- `scanner.Orchestrator`: the probe collection plus the mode flag. -/
structure Orchestrator where
  scanners : List Scanner
  parallel : Bool

/-- The cancellation context handed to `RunScan`.  The body of `RunScan`
never reads it; we model the one observable signal a caller could set. -/
structure Ctx where
  cancelled : Bool

/-- `result.RiskSummary[item.Risk.Level]++` on the Go map, embedded on the
association list: bump the key's count, inserting it at the end if absent. -/
def bumpLevel (m : List (RiskLevel × Nat)) (k : RiskLevel) : List (RiskLevel × Nat) :=
  match m with
  | [] => [(k, 1)]
  | (k', v) :: rest => if k' = k then (k', v + 1) :: rest else (k', v) :: bumpLevel rest k

/-- The `// Calculate risk summary` loop of `RunScan`: count items by
`item.Risk.Level`. -/
def riskSummaryOf (items : List PersistenceItem) : List (RiskLevel × Nat) :=
  items.foldl (fun m it => bumpLevel m it.risk.level) []

/-- One iteration of the scan loop: on error append a `ScanError` tagged
with the scanner's mechanism, otherwise append the scanner's entries. -/
def scanStep (acc : List PersistenceItem × List ScanError) (s : Scanner) :
    List PersistenceItem × List ScanError :=
  match s.scan with
  | .error e => (acc.1, acc.2 ++ [{ mechanism := s.type, error := e }])
  | .ok items => (acc.1 ++ items, acc.2)

/-- Merging the scanners in a given order: the sequential loop runs them in
list order; in the parallel branch each goroutine performs exactly one
mutex-guarded append, so a run is this same fold over its completion order. -/
def mergeScanners (l : List Scanner) : List PersistenceItem × List ScanError :=
  l.foldl scanStep ([], [])

/-- `Orchestrator.RunScan`.  `completionOrder` is the order in which the
goroutines of the parallel branch acquire the result mutex; the sequential
branch ignores it and uses the configured order.  The Go function returns
`(*ScanResult, error)`; the error is embedded as `Option String`. -/
def RunScan (o : Orchestrator) (ctx : Ctx) (completionOrder : List Scanner) :
    ScanResult × Option String :=
  let l := if o.parallel then completionOrder else o.scanners
  let merged := mergeScanners l
  ({ items := merged.1
     totalItems := merged.1.length
     riskSummary := riskSummaryOf merged.1
     errors := merged.2 }, none)

/-- The entries a scanner contributes: its list on success, nothing on error. -/
def okItems (s : Scanner) : List PersistenceItem :=
  match s.scan with
  | .ok items => items
  | .error _ => []

/-- The `ScanError` a scanner contributes, when it fails. -/
def errOf (s : Scanner) : Option ScanError :=
  match s.scan with
  | .ok _ => none
  | .error e => some { mechanism := s.type, error := e }

/-! ## Risk engine (`pkg/risk/engine.go`) -/

/-- A `risk.Heuristic` as `AssessRisk` consumes it: its pure `Analyze`
function (`Name()` is never called during assessment). -/
abbrev Heuristic := PersistenceItem → HeuristicResult

/-- `risk.Engine`: the configured, ordered heuristic collection. -/
structure Engine where
  heuristics : List Heuristic

/-- `Engine.scoreToRiskLevel`: fixed thresholds, closed from above. -/
def scoreToRiskLevel (score : ℚ) : RiskLevel :=
  if score ≥ 0.8 then RiskCritical
  else if score ≥ 0.6 then RiskHigh
  else if score ≥ 0.4 then RiskMedium
  else if score ≥ 0.2 then RiskLow
  else RiskInfo

/-- The accumulator of the `// Run all heuristics` loop of `AssessRisk`:
the growing verdict and reasons lists plus the three running aggregates. -/
structure AssessAcc where
  heuristics : List HeuristicResult
  reasons : List String
  totalScore : ℚ
  totalConfidence : ℚ
  triggeredCount : Nat
deriving DecidableEq, Repr

/-- One iteration of the heuristic loop: record the verdict; if it
triggered, bump the count, the confidence-weighted score sum, the
confidence sum, and the reasons list. -/
def assessStep (item : PersistenceItem) (acc : AssessAcc) (h : Heuristic) : AssessAcc :=
  let r := h item
  let acc' := { acc with heuristics := acc.heuristics ++ [r] }
  if r.triggered then
    { acc' with
      triggeredCount := acc'.triggeredCount + 1
      totalScore := acc'.totalScore + r.score * r.confidence
      totalConfidence := acc'.totalConfidence + r.confidence
      reasons := acc'.reasons ++ [r.details] }
  else acc'

/-! ### The sort used by `AssessRisk`

The source sorts the verdict list with `sort.Slice(assessment.Heuristics,
func(i, j int) bool { return Heuristics[i].Score > Heuristics[j].Score })`.
`go.mod` pins Go 1.21, whose `sort.Slice` is pdqsort
(`src/sort/zsortfunc.go`): an insertion sort for ranges of ≤ 12 elements
and an unstable pattern-defeating quicksort above that.  The functions
below transcribe that implementation over a `List HeuristicResult` with
the source's comparator; Go's in-place swaps become functional updates,
Go's `for {}` loops become recursion (with an explicit iteration budget
where the decrease is not syntactic — the budgets passed in strictly
exceed the loops' possible iteration counts). -/

/-- The element the comparator reads at an index (out-of-range reads do
not occur on the paths the sort takes; a default keeps the model total). -/
def getScore (l : List HeuristicResult) (i : Nat) : ℚ :=
  match l.get? i with
  | some r => r.score
  | none => 0

/-- `data.Less(i, j)` of the source's sort call:
`Heuristics[i].Score > Heuristics[j].Score`. -/
def lessAt (l : List HeuristicResult) (i j : Nat) : Bool :=
  decide (getScore l i > getScore l j)

/-- `data.Swap(i, j)`. -/
def swapAt (l : List HeuristicResult) (i j : Nat) : List HeuristicResult :=
  match l.get? i, l.get? j with
  | some x, some y => (l.set i y).set j x
  | _, _ => l

/-- Inner loop of `insertionSort_func`:
`for j := i; j > a && data.Less(j, j-1); j-- { data.Swap(j, j-1) }`. -/
def insInnerGo (l : List HeuristicResult) (a : Nat) : Nat → List HeuristicResult
  | 0 => l
  | j + 1 =>
    if a ≤ j ∧ lessAt l (j + 1) j then insInnerGo (swapAt l (j + 1) j) a j else l

/-- Outer loop of `insertionSort_func`: `for i := a+1; i < b; i++`.  The
first `Nat` is the remaining iteration budget (any value ≥ `b - i`
makes the loop run until `i < b` fails, as in the source). -/
def insOuterGo (l : List HeuristicResult) (a b : Nat) : Nat → Nat → List HeuristicResult
  | 0, _ => l
  | fuel + 1, i => if i < b then insOuterGo (insInnerGo l a i) a b fuel (i + 1) else l

/-- `insertionSort_func(data, a, b)`. -/
def insertionSortGo (l : List HeuristicResult) (a b : Nat) : List HeuristicResult :=
  insOuterGo l a b (b - a) (a + 1)

/-- The child selection of `siftDown_func`: the larger of the two
children of `root` (offset by `first`). -/
def siftChildGo (l : List HeuristicResult) (first root hi : Nat) : Nat :=
  if 2 * root + 1 + 1 < hi ∧
      lessAt l (first + (2 * root + 1)) (first + (2 * root + 1) + 1) then
    2 * root + 1 + 1
  else 2 * root + 1

/-- `siftDown_func(data, lo, hi, first)` (heap sift for the heapsort
fallback); the root strictly increases towards `hi`, so a budget of `hi`
runs the loop to completion. -/
def siftDownGo (l : List HeuristicResult) (root hi first : Nat) :
    Nat → List HeuristicResult
  | 0 => l
  | fuel + 1 =>
    if 2 * root + 1 < hi then
      if ¬ lessAt l (first + root) (first + siftChildGo l first root hi) then l
      else
        siftDownGo (swapAt l (first + root) (first + siftChildGo l first root hi))
          (siftChildGo l first root hi) hi first fuel
    else l

/-- Heap-building loop of `heapSort_func`
(`for i := (hi-1)/2; i >= 0; i--`), with the counter running from
`(hi-1)/2 + 1` down to 0. -/
def heapBuildGo (l : List HeuristicResult) (first hi : Nat) : Nat → List HeuristicResult
  | 0 => l
  | n + 1 => heapBuildGo (siftDownGo l n hi first hi) first hi n

/-- Pop loop of `heapSort_func` (`for i := hi-1; i >= 0; i--`), with the
counter running from `hi` down to 0. -/
def heapPopGo (l : List HeuristicResult) (first : Nat) : Nat → List HeuristicResult
  | 0 => l
  | n + 1 => heapPopGo (siftDownGo (swapAt l first (first + n)) 0 n first n) first n

/-- `heapSort_func(data, a, b)` (the depth-limit fallback). -/
def heapSortGo (l : List HeuristicResult) (a b : Nat) : List HeuristicResult :=
  heapPopGo (heapBuildGo l a (b - a) ((b - a - 1) / 2 + 1)) a (b - a)

/-- `order2_func`: order two indices by the data, counting swaps. -/
def order2Go (l : List HeuristicResult) (i j sw : Nat) : Nat × Nat × Nat :=
  if lessAt l j i then (j, i, sw + 1) else (i, j, sw)

/-- `median_func`: index of the median of three, counting swaps. -/
def medianGo (l : List HeuristicResult) (a b c sw : Nat) : Nat × Nat :=
  let (a1, b1, sw1) := order2Go l a b sw
  let (b2, _, sw2) := order2Go l b1 c sw1
  let (_, b3, sw3) := order2Go l a1 b2 sw2
  (b3, sw3)

/-- `medianAdjacent_func`: median of an index and its two neighbours. -/
def medianAdjacentGo (l : List HeuristicResult) (i sw : Nat) : Nat × Nat :=
  medianGo l (i - 1) i (i + 1) sw

/-- The three sortedness hints of `choosePivot_func`. -/
inductive SortedHint where
  | increasing
  | decreasing
  | unknown
deriving DecidableEq, Repr

/-- `choosePivot_func(data, a, b)`: median-of-three (ninther above 50
elements) pivot selection, returning the pivot index and a sortedness
hint from the comparison-swap count (0 swaps → increasing, 12 →
decreasing). -/
def choosePivotGo (l : List HeuristicResult) (a b : Nat) : Nat × SortedHint :=
  let len := b - a
  let i := a + len / 4 * 1
  let j := a + len / 4 * 2
  let k := a + len / 4 * 3
  if len ≥ 8 then
    let (i, j, k, sw0) :=
      if len ≥ 50 then
        let (i1, s1) := medianAdjacentGo l i 0
        let (j1, s2) := medianAdjacentGo l j s1
        let (k1, s3) := medianAdjacentGo l k s2
        (i1, j1, k1, s3)
      else (i, j, k, 0)
    let (m, sw) := medianGo l i j k sw0
    if sw = 0 then (m, SortedHint.increasing)
    else if sw = 12 then (m, SortedHint.decreasing)
    else (m, SortedHint.unknown)
  else (j, SortedHint.increasing)

/-- Swap loop of `reverseRange_func` (`for i < j`), with iteration
budget. -/
def revGo (l : List HeuristicResult) : Nat → Nat → Nat → List HeuristicResult
  | 0, _, _ => l
  | fuel + 1, i, j => if i < j then revGo (swapAt l i j) fuel (i + 1) (j - 1) else l

/-- `reverseRange_func(data, a, b)`. -/
def reverseRangeGo (l : List HeuristicResult) (a b : Nat) : List HeuristicResult :=
  revGo l (b - a) a (b - 1)

/-- The sorted-run scan of Go's partial insertion sort:
`for i < b && !data.Less(i, i-1) { i++ }`, with iteration budget. -/
def scanRunGo (l : List HeuristicResult) (b : Nat) : Nat → Nat → Nat
  | 0, i => i
  | fuel + 1, i => if i < b ∧ ¬ lessAt l i (i - 1) then scanRunGo l b fuel (i + 1) else i

/-- Left-shift loop of Go's partial insertion sort
(`for j := i-1; j >= 1; j--`). -/
def shiftLeftGo (l : List HeuristicResult) : Nat → List HeuristicResult
  | 0 => l
  | j + 1 => if ¬ lessAt l (j + 1) j then l else shiftLeftGo (swapAt l (j + 1) j) j

/-- Right-shift loop of Go's partial insertion sort
(`for j := i+1; j < b; j++`), with iteration budget. -/
def shiftRightGo (l : List HeuristicResult) (b : Nat) : Nat → Nat → List HeuristicResult
  | 0, _ => l
  | fuel + 1, j =>
    if j < b then
      (if ¬ lessAt l j (j - 1) then l
       else shiftRightGo (swapAt l j (j - 1)) b fuel (j + 1))
    else l

/-- `partialInsertionSort_func(data, a, b)` (name adapted): repairs up to
5 adjacent out-of-order pairs and reports whether the range ended up
sorted; on ranges shorter than 50 it only detects sortedness and never
shifts.  The counter is `maxSteps = 5`. -/
def fewSwapsSortGo (l : List HeuristicResult) (a b i : Nat) :
    Nat → List HeuristicResult × Bool
  | 0 => (l, false)
  | steps + 1 =>
    let i := scanRunGo l b b i
    if i = b then (l, true)
    else if b - a < 50 then (l, false)
    else
      let l := swapAt l i (i - 1)
      let l := if i - a ≥ 2 then shiftLeftGo l (i - 1) else l
      let l := if b - i ≥ 2 then shiftRightGo l b b (i + 1) else l
      fewSwapsSortGo l a b i steps

/-- `xorshift.Next()` on a 64-bit state. -/
def xorshiftNext (r : Nat) : Nat :=
  let r := (r ^^^ (r <<< 13)) % 2 ^ 64
  let r := r ^^^ (r >>> 7)
  (r ^^^ (r <<< 17)) % 2 ^ 64

/-- `bits.Len(uint(n))`. -/
def bitsLen (n : Nat) : Nat :=
  if n = 0 then 0 else Nat.log2 n + 1

/-- `breakPatterns_func(data, a, b)`: xorshift-seeded swaps of three
elements around the midpoint, to break up patterns that defeat the
pivot choice. -/
def breakPatternsGo (l : List HeuristicResult) (a b : Nat) : List HeuristicResult :=
  let len := b - a
  if len ≥ 8 then
    let modulus := 2 ^ bitsLen len
    let idx := a + len / 4 * 2 - 1
    let r1 := xorshiftNext len
    let r2 := xorshiftNext r1
    let r3 := xorshiftNext r2
    let pick := fun (r : Nat) =>
      let other := r &&& (modulus - 1)
      if other ≥ len then other - len else other
    let l := swapAt l (idx - 1) (a + pick r1)
    let l := swapAt l idx (a + pick r2)
    swapAt l (idx + 1) (a + pick r3)
  else l

/-- Left scan of `partition_func`: `for i <= j && data.Less(i, a) { i++ }`,
with iteration budget. -/
def scanIGo (l : List HeuristicResult) (a j : Nat) : Nat → Nat → Nat
  | 0, i => i
  | fuel + 1, i => if i ≤ j ∧ lessAt l i a then scanIGo l a j fuel (i + 1) else i

/-- Right scan of `partition_func`: `for i <= j && !data.Less(j, a) { j-- }`
(the scans never pass index 0, as `i ≥ a + 1 ≥ 1` throughout). -/
def scanJGo (l : List HeuristicResult) (a i : Nat) : Nat → Nat
  | 0 => 0
  | j + 1 => if i ≤ j + 1 ∧ ¬ lessAt l (j + 1) a then scanJGo l a i j else j + 1

/-- Main swap loop of `partition_func`. -/
def partitionLoopGo (l : List HeuristicResult) (a i j : Nat) :
    Nat → List HeuristicResult × Nat × Nat
  | 0 => (l, i, j)
  | fuel + 1 =>
    let i := scanIGo l a j (j + 1) i
    let j := scanJGo l a i j
    if i > j then (l, i, j)
    else partitionLoopGo (swapAt l i j) a (i + 1) (j - 1) fuel

/-- `partition_func(data, a, b, pivot)`: Hoare partition around the pivot
(moved to the front first), returning the new pivot position and whether
the range was already partitioned. -/
def partitionGo (l : List HeuristicResult) (a b pivot : Nat) :
    List HeuristicResult × Nat × Bool :=
  let l := swapAt l a pivot
  let i := scanIGo l a (b - 1) b (a + 1)
  let j := scanJGo l a i (b - 1)
  if i > j then (swapAt l j a, j, true)
  else
    let l := swapAt l i j
    let (l, _, j') := partitionLoopGo l a (i + 1) (j - 1) (b - a)
    (swapAt l j' a, j', false)

/-- Left scan of `partitionEqual_func`:
`for i <= j && !data.Less(a, i) { i++ }`, with iteration budget. -/
def scanIEqGo (l : List HeuristicResult) (a j : Nat) : Nat → Nat → Nat
  | 0, i => i
  | fuel + 1, i => if i ≤ j ∧ ¬ lessAt l a i then scanIEqGo l a j fuel (i + 1) else i

/-- Right scan of `partitionEqual_func`:
`for i <= j && data.Less(a, j) { j-- }`. -/
def scanJEqGo (l : List HeuristicResult) (a i : Nat) : Nat → Nat
  | 0 => 0
  | j + 1 => if i ≤ j + 1 ∧ lessAt l a (j + 1) then scanJEqGo l a i j else j + 1

/-- Swap loop of `partitionEqual_func`. -/
def partitionEqualLoopGo (l : List HeuristicResult) (a i j : Nat) :
    Nat → List HeuristicResult × Nat
  | 0 => (l, i)
  | fuel + 1 =>
    let i := scanIEqGo l a j (j + 1) i
    let j := scanJEqGo l a i j
    if i > j then (l, i)
    else partitionEqualLoopGo (swapAt l i j) a (i + 1) (j - 1) fuel

/-- `partitionEqual_func(data, a, b, pivot)`: splits the range into
elements equal to the pivot followed by elements greater than it. -/
def partitionEqualGo (l : List HeuristicResult) (a b pivot : Nat) :
    List HeuristicResult × Nat :=
  partitionEqualLoopGo (swapAt l a pivot) a (a + 1) (b - 1) (b - a)

/-- `pdqsort_func(data, a, b, limit)`.  The outer `for {}` loop and the
recursive calls are driven by `fuel`; every step either recurses into a
strictly shorter range or advances `a`/`b`, so any fuel of at least
`2 * (b - a) + limit + 2` runs the algorithm to completion. -/
def pdqsortGo (l : List HeuristicResult)
    (a b limit : Nat) (wasBalanced wasPartitioned : Bool) :
    Nat → List HeuristicResult
  | 0 => l
  | fuel + 1 =>
    let len := b - a
    if len ≤ 12 then insertionSortGo l a b
    else if limit = 0 then heapSortGo l a b
    else
      let (l, limit) :=
        if ¬ wasBalanced then (breakPatternsGo l a b, limit - 1) else (l, limit)
      let (pivot, hint) := choosePivotGo l a b
      let (l, pivot, hint) :=
        if hint = SortedHint.decreasing then
          (reverseRangeGo l a b, (b - 1) - (pivot - a), SortedHint.increasing)
        else (l, pivot, hint)
      let (l, done) :=
        if wasBalanced ∧ wasPartitioned ∧ hint = SortedHint.increasing then
          fewSwapsSortGo l a b (a + 1) 5
        else (l, false)
      if done then l
      else if 0 < a ∧ ¬ lessAt l (a - 1) pivot then
        let (l, mid) := partitionEqualGo l a b pivot
        pdqsortGo l mid b limit wasBalanced wasPartitioned fuel
      else
        let (l, mid, already) := partitionGo l a b pivot
        let leftLen := mid - a
        let rightLen := b - mid
        let bal := decide (min leftLen rightLen ≥ len / 8)
        if leftLen < rightLen then
          pdqsortGo (pdqsortGo l a mid limit true true fuel) (mid + 1) b limit
            bal already fuel
        else
          pdqsortGo (pdqsortGo l (mid + 1) b limit true true fuel) a mid limit
            bal already fuel

/-- `sort.Slice(assessment.Heuristics, Score-descending)` as Go 1.21 runs
it: pdqsort over the whole slice with depth limit `bits.Len(uint(n))`. -/
def sortSliceByScoreGo (l : List HeuristicResult) : List HeuristicResult :=
  pdqsortGo l 0 l.length (bitsLen l.length) true true (2 * l.length + bitsLen l.length + 2)

/-- `Engine.AssessRisk`: run every heuristic in order, aggregate the
triggered verdicts, classify the score, and sort the verdict list. -/
def AssessRisk (e : Engine) (item : PersistenceItem) : RiskAssessment :=
  let acc := e.heuristics.foldl (assessStep item) ⟨[], [], 0, 0, 0⟩
  let score := if acc.triggeredCount > 0 then acc.totalScore / acc.totalConfidence else 0
  let confidence :=
    if acc.triggeredCount > 0 then min (acc.totalConfidence / acc.triggeredCount) 1 else 1
  { level := scoreToRiskLevel score
    score := score
    confidence := confidence
    reasons := acc.reasons
    heuristics := sortSliceByScoreGo acc.heuristics }

/-- The verdicts produced for an item, in heuristic-execution order. -/
def verdictsOf (e : Engine) (item : PersistenceItem) : List HeuristicResult :=
  e.heuristics.map (fun h => h item)

/-- The triggered verdicts, in heuristic-execution order. -/
def triggeredOf (e : Engine) (item : PersistenceItem) : List HeuristicResult :=
  (verdictsOf e item).filter (·.triggered)

/-- `totalScore` at the end of the loop: the confidence-weighted score sum
of the triggered verdicts. -/
def totalScoreOf (e : Engine) (item : PersistenceItem) : ℚ :=
  ((triggeredOf e item).map (fun r => r.score * r.confidence)).sum

/-- `totalConfidence` at the end of the loop: the confidence sum of the
triggered verdicts. -/
def totalConfidenceOf (e : Engine) (item : PersistenceItem) : ℚ :=
  ((triggeredOf e item).map (·.confidence)).sum

/-- `triggeredCount` at the end of the loop. -/
def triggeredCountOf (e : Engine) (item : PersistenceItem) : Nat :=
  (triggeredOf e item).length

/-- The rank of a tier in the spec order Info < Low < Medium < High <
Critical (other strings, including the zero value, sit below Info). -/
def levelRank (l : RiskLevel) : Nat :=
  if l = RiskCritical then 4
  else if l = RiskHigh then 3
  else if l = RiskMedium then 2
  else if l = RiskLow then 1
  else 0

/-! ## Spec-side definition for the tier-refinement claim -/

/-- The spec's wording of the classification, for comparison with the
source's `scoreToRiskLevel`: "score ≥ 0.8 → Critical; ≥ 0.6 → High;
≥ 0.4 → Medium; ≥ 0.2 → Low; else → Info.  Boundaries belong to the
higher tier." -/
def specScoreToTier (score : ℚ) : RiskLevel :=
  if score ≥ 0.8 then RiskCritical
  else if score ≥ 0.6 then RiskHigh
  else if score ≥ 0.4 then RiskMedium
  else if score ≥ 0.2 then RiskLow
  else RiskInfo

/-! ## Concrete inputs used by the witnesses -/

/-- A concrete persistence entry (a typical LaunchAgent discovery),
carrying the pre-assessment zero-value risk as entries do when a probe
returns them. -/
def sampleItem : PersistenceItem :=
  { id := "com.example.agent.plist", mechanism := "LaunchAgent", label := "com.example.agent"
    path := "/Library/LaunchAgents/com.example.agent.plist", program := "/tmp/payload"
    programArgs := [], user := "", runAtLoad := true, keepAlive := false, disabled := false
    fileMode := "0644", risk := zeroRiskAssessment, errors := [] }

/-- The spec's two-trigger worked example plus one non-triggering
heuristic: A (score 0.9, confidence 0.5) and B (score 0.3, confidence 1.0)
trigger, C does not. -/
def engWeighted : Engine :=
  ⟨[fun _ => ⟨"A", true, 0.9, 0.5, "ra"⟩,
    fun _ => ⟨"B", true, 0.3, 1, "rb"⟩,
    fun _ => ⟨"C", false, 0, 0.7, ""⟩]⟩

/-- One heuristic that triggers with confidence exactly 0 (the [0,1]
range permits it), exercising the unguarded division. -/
def engZeroConf : Engine :=
  ⟨[fun _ => ⟨"Z", true, 0.5, 0, "rz"⟩]⟩

/-- Two heuristics, neither of which triggers. -/
def engNoTrigger : Engine :=
  ⟨[fun _ => ⟨"A", false, 0, 0.5, ""⟩, fun _ => ⟨"B", false, 0, 1, ""⟩]⟩

/-- A second concrete entry, discovered by a different mechanism. -/
def sampleItem2 : PersistenceItem :=
  { id := "backdoor", mechanism := "CronJob", label := "backdoor"
    path := "/var/at/tabs/root", program := "/usr/local/bin/backdoor"
    programArgs := ["-d"], user := "root", runAtLoad := false, keepAlive := false
    disabled := false, fileMode := "0600", risk := zeroRiskAssessment, errors := [] }

/-- A probe that fails (e.g. permission denied on its store). -/
def scannerP : Scanner := ⟨"ConfigurationProfile", .error "permission denied"⟩

/-- A probe that succeeds with one entry. -/
def scannerQ : Scanner := ⟨"LaunchAgent", .ok [sampleItem]⟩

/-- A probe that succeeds with one entry of another mechanism. -/
def scannerR : Scanner := ⟨"CronJob", .ok [sampleItem2]⟩

/-- Reading the risk-summary map at a key, as the Go map read does:
0 for an absent key. -/
def summaryCount : List (RiskLevel × Nat) → RiskLevel → Nat
  | [], _ => 0
  | (k', v) :: rest, k => if k' = k then v else summaryCount rest k

/-- Thirteen verdicts, one per heuristic h0…h12, all scoring 1 except h11
scoring 0: 13 elements is the smallest verdict count on which
`sort.Slice` leaves its (stable) insertion-sort path for pdqsort. -/
def verdicts13 : List HeuristicResult :=
  [⟨"h0", false, 1, 1, ""⟩, ⟨"h1", false, 1, 1, ""⟩, ⟨"h2", false, 1, 1, ""⟩,
   ⟨"h3", false, 1, 1, ""⟩, ⟨"h4", false, 1, 1, ""⟩, ⟨"h5", false, 1, 1, ""⟩,
   ⟨"h6", false, 1, 1, ""⟩, ⟨"h7", false, 1, 1, ""⟩, ⟨"h8", false, 1, 1, ""⟩,
   ⟨"h9", false, 1, 1, ""⟩, ⟨"h10", false, 1, 1, ""⟩, ⟨"h11", false, 0, 1, ""⟩,
   ⟨"h12", false, 1, 1, ""⟩]

/-- An engine of thirteen heuristics returning the verdicts above in
execution order h0, h1, …, h12. -/
def eng13 : Engine := ⟨verdicts13.map (fun r => fun _ => r)⟩

/-! ## Bridge lemmas: closed forms of the two accumulation loops -/

theorem foldl_scanStep (l : List Scanner) (a : List PersistenceItem) (b : List ScanError) :
    l.foldl scanStep (a, b) = (a ++ l.flatMap okItems, b ++ l.filterMap errOf) := by
  induction l generalizing a b with
  | nil => simp
  | cons s t ih =>
    cases hs : s.scan with
    | error e =>
      simp [scanStep, hs, ih, okItems, errOf, List.flatMap_cons, List.filterMap_cons]
    | ok items =>
      simp [scanStep, hs, ih, okItems, errOf, List.flatMap_cons, List.filterMap_cons]

theorem mergeScanners_eq (l : List Scanner) :
    mergeScanners l = (l.flatMap okItems, l.filterMap errOf) := by
  simpa using foldl_scanStep l [] []

theorem foldl_assessStep (item : PersistenceItem) (hs : List Heuristic) (acc : AssessAcc) :
    hs.foldl (assessStep item) acc =
      { heuristics := acc.heuristics ++ hs.map (fun h => h item)
        reasons := acc.reasons ++
          (((hs.map (fun h => h item)).filter (·.triggered)).map (·.details))
        totalScore := acc.totalScore +
          ((((hs.map (fun h => h item)).filter (·.triggered)).map
            (fun r => r.score * r.confidence)).sum)
        totalConfidence := acc.totalConfidence +
          ((((hs.map (fun h => h item)).filter (·.triggered)).map (·.confidence)).sum)
        triggeredCount := acc.triggeredCount +
          (((hs.map (fun h => h item)).filter (·.triggered)).length) } := by
  induction hs generalizing acc with
  | nil => simp
  | cons h t ih =>
    by_cases htr : (h item).triggered
    · simp [assessStep, htr, ih, List.filter_cons]
      refine ⟨?_, ?_, ?_⟩
      · exact add_assoc _ _ _
      · exact add_assoc _ _ _
      · exact (Nat.add_right_comm _ _ _).trans (Nat.add_assoc _ _ _)
    · simp [assessStep, htr, ih, List.filter_cons]

theorem AssessRisk_eq (e : Engine) (item : PersistenceItem) :
    AssessRisk e item =
      let score :=
        if triggeredCountOf e item > 0 then totalScoreOf e item / totalConfidenceOf e item
        else 0
      let confidence :=
        if triggeredCountOf e item > 0 then
          min (totalConfidenceOf e item / (triggeredCountOf e item : ℚ)) 1
        else 1
      { level := scoreToRiskLevel score
        score := score
        confidence := confidence
        reasons := (triggeredOf e item).map (·.details)
        heuristics := sortSliceByScoreGo (verdictsOf e item) } := by
  simp only [AssessRisk, foldl_assessStep, triggeredCountOf, totalScoreOf, totalConfidenceOf,
    triggeredOf, verdictsOf]
  simp

/-! ## Claim theorems: risk engine -/

/-- C3: whenever at least one heuristic triggers, `AssessRisk` returns a
score equal to the confidence-weighted score sum of the triggered verdicts
divided by their confidence sum (not divided by the triggered count), and
a confidence equal to `min(totalConfidence / n, 1)`; non-triggered
verdicts contribute to neither sum (`totalScoreOf`/`totalConfidenceOf`
range over the triggered verdicts only). -/
theorem assessRisk_weighted_average (e : Engine) (item : PersistenceItem)
    (hn : 0 < triggeredCountOf e item) :
    (AssessRisk e item).score = totalScoreOf e item / totalConfidenceOf e item ∧
    (AssessRisk e item).confidence =
      min (totalConfidenceOf e item / (triggeredCountOf e item : ℚ)) 1 := by
  rw [AssessRisk_eq]
  simp [hn]

/-- Witness for C3: the spec's two-trigger example — A (0.9, 0.5) and
B (0.3, 1.0) trigger, C does not — gives score (0.45+0.3)/1.5 = 0.5 and
confidence min(1.5/2, 1) = 0.75. -/
theorem assessRisk_weighted_average_witness :
    0 < triggeredCountOf engWeighted sampleItem ∧
    (AssessRisk engWeighted sampleItem).score = 0.5 ∧
    (AssessRisk engWeighted sampleItem).confidence = 0.75 := by
  have h0 : 0 < triggeredCountOf engWeighted sampleItem := by
    simp [triggeredCountOf, triggeredOf, verdictsOf, engWeighted]
  have h := assessRisk_weighted_average engWeighted sampleItem h0
  refine ⟨h0, ?_, ?_⟩
  · rw [h.1]
    simp [totalScoreOf, totalConfidenceOf, triggeredOf, verdictsOf, engWeighted]
    norm_num
  · rw [h.2]
    simp [totalConfidenceOf, triggeredCountOf, triggeredOf, verdictsOf, engWeighted]
    norm_num

/-- C4: the score-to-tier classification is exactly the spec's fixed
threshold function (boundaries to the higher tier), and it is monotone in
the order Info < Low < Medium < High < Critical. -/
theorem scoreToRiskLevel_spec_and_monotone (s1 s2 : ℚ) (h : s1 < s2) :
    scoreToRiskLevel s1 = specScoreToTier s1 ∧
    scoreToRiskLevel s2 = specScoreToTier s2 ∧
    levelRank (scoreToRiskLevel s1) ≤ levelRank (scoreToRiskLevel s2) := by
  refine ⟨rfl, rfl, ?_⟩
  unfold scoreToRiskLevel
  split_ifs <;>
    simp_all [levelRank, RiskCritical, RiskHigh, RiskMedium, RiskLow, RiskInfo] <;>
    linarith

/-- Witness for C4 at s1 = 0.5 < s2 = 0.9: Medium vs Critical. -/
theorem scoreToRiskLevel_spec_and_monotone_witness :
    (0.5 : ℚ) < 0.9 ∧
    scoreToRiskLevel 0.5 = specScoreToTier 0.5 ∧
    scoreToRiskLevel 0.9 = specScoreToTier 0.9 ∧
    levelRank (scoreToRiskLevel 0.5) ≤ levelRank (scoreToRiskLevel 0.9) :=
  ⟨by norm_num, scoreToRiskLevel_spec_and_monotone 0.5 0.9 (by norm_num)⟩

/-- C6: against an entry on which no heuristic triggers (including an
empty heuristic list), `AssessRisk` returns score 0, confidence 1, tier
Info and an empty reasons list — aggregation always yields this
well-formed assessment. -/
theorem assessRisk_no_trigger (e : Engine) (item : PersistenceItem)
    (hnone : ∀ r ∈ verdictsOf e item, r.triggered = false) :
    (AssessRisk e item).score = 0 ∧
    (AssessRisk e item).confidence = 1 ∧
    (AssessRisk e item).level = RiskInfo ∧
    (AssessRisk e item).reasons = [] := by
  have htrig : triggeredOf e item = [] := by
    rw [triggeredOf, List.filter_eq_nil_iff]
    intro r hr
    simp [hnone r hr]
  have hcount : triggeredCountOf e item = 0 := by
    simp [triggeredCountOf, htrig]
  rw [AssessRisk_eq]
  simp [hcount, htrig, scoreToRiskLevel, RiskInfo]
  norm_num

/-- Witness for C6: two non-triggering heuristics on the sample entry. -/
theorem assessRisk_no_trigger_witness :
    (∀ r ∈ verdictsOf engNoTrigger sampleItem, r.triggered = false) ∧
    (AssessRisk engNoTrigger sampleItem).score = 0 ∧
    (AssessRisk engNoTrigger sampleItem).confidence = 1 ∧
    (AssessRisk engNoTrigger sampleItem).level = RiskInfo ∧
    (AssessRisk engNoTrigger sampleItem).reasons = [] := by
  have h0 : ∀ r ∈ verdictsOf engNoTrigger sampleItem, r.triggered = false := by
    simp [verdictsOf, engNoTrigger]
  exact ⟨h0, assessRisk_no_trigger engNoTrigger sampleItem h0⟩

/-- C8: with the heuristics embedded as the pure functions the claim
presupposes, `AssessRisk` is deterministic — identical copies of an entry
yield structurally identical assessments. -/
theorem assessRisk_deterministic (e : Engine) (item1 item2 : PersistenceItem)
    (h : item1 = item2) :
    AssessRisk e item1 = AssessRisk e item2 := by
  rw [h]

/-- Witness for C8 at the sample entry. -/
theorem assessRisk_deterministic_witness :
    AssessRisk engWeighted sampleItem = AssessRisk engWeighted sampleItem :=
  assessRisk_deterministic engWeighted sampleItem sampleItem rfl

/-- C9: when some heuristic triggers but every triggered verdict has
confidence exactly 0, the divisor `totalConfidence` of the unguarded
division computing the score is 0 (in IEEE float arithmetic 0/0 is NaN;
the embedding states the zero divisor itself) and the returned confidence
is 0. -/
theorem assessRisk_zero_confidence_division (e : Engine) (item : PersistenceItem)
    (hn : 0 < triggeredCountOf e item)
    (hzero : ∀ r ∈ triggeredOf e item, r.confidence = 0) :
    totalConfidenceOf e item = 0 ∧
    (AssessRisk e item).score = totalScoreOf e item / totalConfidenceOf e item ∧
    (AssessRisk e item).confidence = 0 := by
  have htc : totalConfidenceOf e item = 0 := by
    rw [totalConfidenceOf]
    apply List.sum_eq_zero
    intro x hx
    rcases List.mem_map.mp hx with ⟨r, hr, hrx⟩
    rw [← hrx]
    exact hzero r hr
  have h := (AssessRisk_eq e item)
  refine ⟨htc, ?_, ?_⟩
  · rw [h]
    simp [hn]
  · rw [h]
    simp only [hn, if_pos, htc]
    simp [zero_div]

/-- Witness for C9: one heuristic triggering with confidence 0. -/
theorem assessRisk_zero_confidence_division_witness :
    0 < triggeredCountOf engZeroConf sampleItem ∧
    (∀ r ∈ triggeredOf engZeroConf sampleItem, r.confidence = 0) ∧
    totalConfidenceOf engZeroConf sampleItem = 0 ∧
    (AssessRisk engZeroConf sampleItem).score =
      totalScoreOf engZeroConf sampleItem / totalConfidenceOf engZeroConf sampleItem ∧
    (AssessRisk engZeroConf sampleItem).confidence = 0 := by
  have h1 : 0 < triggeredCountOf engZeroConf sampleItem := by
    simp [triggeredCountOf, triggeredOf, verdictsOf, engZeroConf]
  have h2 : ∀ r ∈ triggeredOf engZeroConf sampleItem, r.confidence = 0 := by
    simp [triggeredOf, verdictsOf, engZeroConf]
  exact ⟨h1, h2, assessRisk_zero_confidence_division engZeroConf sampleItem h1 h2⟩

set_option maxRecDepth 200000 in
/-- C5 (the code's actual tie behaviour at 13 heuristics): the engine
`eng13` runs its heuristics in order h0…h12 and their verdicts all score
1 except h11's 0, yet the sorted verdict list of `AssessRisk` starts with
h6's verdict, placing it before the equal-scored verdicts of the
earlier-executed h0…h5 — `sort.Slice` (pdqsort beyond 12 elements, here
the pivot swap of its first partition) does not preserve
heuristic-execution order among equal scores, while the spec requires a
stable sort.  The list is still one verdict per heuristic and
score-descending. -/
theorem assessRisk_sort_unstable :
    (verdictsOf eng13 sampleItem).map (fun r => r.name) =
      ["h0", "h1", "h2", "h3", "h4", "h5", "h6", "h7", "h8", "h9", "h10", "h11", "h12"] ∧
    (verdictsOf eng13 sampleItem).map (fun r => r.score) =
      [1, 1, 1, 1, 1, 1, 1, 1, 1, 1, 1, 0, 1] ∧
    (AssessRisk eng13 sampleItem).heuristics.map (fun r => r.name) =
      ["h6", "h1", "h2", "h3", "h4", "h5", "h0", "h7", "h8", "h9", "h10", "h12", "h11"] := by
  refine ⟨by decide, by decide, by decide⟩

/-! ## Orchestrator helper lemmas -/

theorem okItems_sublist_flatMap (s : Scanner) (l : List Scanner) (hs : s ∈ l) :
    (okItems s).Sublist (l.flatMap okItems) := by
  rcases List.append_of_mem hs with ⟨u, v, rfl⟩
  rw [List.flatMap_append, List.flatMap_cons]
  exact (List.sublist_append_left _ _).trans (List.sublist_append_right _ _)

theorem flatMap_okItems_nil (l : List Scanner) (h : ∀ s ∈ l, ∃ e, s.scan = .error e) :
    l.flatMap okItems = [] := by
  induction l with
  | nil => rfl
  | cons s t ih =>
    rcases h s (List.mem_cons_self ..) with ⟨e, he⟩
    rw [List.flatMap_cons, ih fun x hx => h x (List.mem_cons_of_mem _ hx)]
    simp [okItems, he]

theorem filterMap_errOf_length (l : List Scanner) (h : ∀ s ∈ l, ∃ e, s.scan = .error e) :
    (l.filterMap errOf).length = l.length := by
  induction l with
  | nil => rfl
  | cons s t ih =>
    rcases h s (List.mem_cons_self ..) with ⟨e, he⟩
    rw [List.filterMap_cons]
    simp [errOf, he, ih fun x hx => h x (List.mem_cons_of_mem _ hx)]

theorem summaryCount_bumpLevel (m : List (RiskLevel × Nat)) (k k' : RiskLevel) :
    summaryCount (bumpLevel m k) k' = summaryCount m k' + if k = k' then 1 else 0 := by
  induction m with
  | nil => by_cases h : k = k' <;> simp [bumpLevel, summaryCount, h]
  | cons p rest ih =>
    obtain ⟨k1, v⟩ := p
    by_cases h1 : k1 = k
    · subst h1
      by_cases h2 : k1 = k' <;> simp [bumpLevel, summaryCount, h2]
    · by_cases h2 : k1 = k'
      · subst h2
        have hkk : ¬k = k1 := fun hk => h1 hk.symm
        simp [bumpLevel, summaryCount, h1, hkk]
      · simp [bumpLevel, summaryCount, h1, h2, ih]

theorem summaryCount_riskSummary_go (items : List PersistenceItem)
    (m : List (RiskLevel × Nat)) (lvl : RiskLevel) :
    summaryCount (items.foldl (fun acc it => bumpLevel acc it.risk.level) m) lvl =
      summaryCount m lvl + (items.filter (fun it => it.risk.level == lvl)).length := by
  induction items generalizing m with
  | nil => simp
  | cons it t ih =>
    rw [List.foldl_cons, ih, summaryCount_bumpLevel]
    by_cases h : it.risk.level = lvl <;> simp [List.filter_cons, h] <;> omega

theorem summaryCount_riskSummaryOf (items : List PersistenceItem) (lvl : RiskLevel) :
    summaryCount (riskSummaryOf items) lvl =
      (items.filter (fun it => it.risk.level == lvl)).length := by
  rw [riskSummaryOf]
  simpa [summaryCount] using summaryCount_riskSummary_go items [] lvl

/-! ## Claim theorems: orchestrator -/

/-- C1: with a probe collection {P, Q, R} where P's `Scan` fails with
error text `e` while Q and R succeed, `RunScan` returns no call-level
error in either mode, its result contains every entry of Q and of R (each
probe's list as a sublist), and its error list is exactly one `ScanError`
carrying P's mechanism kind and P's error text.  `order` ranges over the
mutex-acquisition orders the parallel branch can exhibit; the sequential
branch ignores it. -/
theorem runScan_fault_isolation (P Q R : Scanner) (e : String)
    (qs rs : List PersistenceItem) (par : Bool) (ctx : Ctx) (order : List Scanner)
    (hP : P.scan = .error e) (hQ : Q.scan = .ok qs) (hR : R.scan = .ok rs)
    (hord : order.Perm [P, Q, R]) :
    (RunScan ⟨[P, Q, R], par⟩ ctx order).2 = none ∧
    qs.Sublist (RunScan ⟨[P, Q, R], par⟩ ctx order).1.items ∧
    rs.Sublist (RunScan ⟨[P, Q, R], par⟩ ctx order).1.items ∧
    (RunScan ⟨[P, Q, R], par⟩ ctx order).1.errors =
      [{ mechanism := P.type, error := e }] := by
  have hl : (if par then order else [P, Q, R]).Perm [P, Q, R] := by
    cases par <;> simp [hord]
  have hitems : (RunScan ⟨[P, Q, R], par⟩ ctx order).1.items =
      (if par then order else [P, Q, R]).flatMap okItems := by
    simp only [RunScan, mergeScanners_eq]
  have herrs : (RunScan ⟨[P, Q, R], par⟩ ctx order).1.errors =
      (if par then order else [P, Q, R]).filterMap errOf := by
    simp only [RunScan, mergeScanners_eq]
  refine ⟨rfl, ?_, ?_, ?_⟩
  · rw [hitems]
    have : Q ∈ (if par then order else [P, Q, R]) := hl.mem_iff.mpr (by simp)
    simpa [okItems, hQ] using okItems_sublist_flatMap Q _ this
  · rw [hitems]
    have : R ∈ (if par then order else [P, Q, R]) := hl.mem_iff.mpr (by simp)
    simpa [okItems, hR] using okItems_sublist_flatMap R _ this
  · rw [herrs]
    have hperm := hl.filterMap errOf
    have : ([P, Q, R].filterMap errOf) = [{ mechanism := P.type, error := e }] := by
      simp [errOf, hP, hQ, hR]
    rw [this] at hperm
    exact List.perm_singleton.mp hperm

/-- Witness for C1: P = failing profile probe, Q and R succeeding probes,
parallel mode with completion order [Q, R, P]. -/
theorem runScan_fault_isolation_witness :
    scannerP.scan = .error "permission denied" ∧
    scannerQ.scan = .ok [sampleItem] ∧
    scannerR.scan = .ok [sampleItem2] ∧
    ([scannerQ, scannerR, scannerP] : List Scanner).Perm [scannerP, scannerQ, scannerR] ∧
    (RunScan ⟨[scannerP, scannerQ, scannerR], true⟩ ⟨false⟩
      [scannerQ, scannerR, scannerP]).2 = none ∧
    [sampleItem].Sublist (RunScan ⟨[scannerP, scannerQ, scannerR], true⟩ ⟨false⟩
      [scannerQ, scannerR, scannerP]).1.items ∧
    [sampleItem2].Sublist (RunScan ⟨[scannerP, scannerQ, scannerR], true⟩ ⟨false⟩
      [scannerQ, scannerR, scannerP]).1.items ∧
    (RunScan ⟨[scannerP, scannerQ, scannerR], true⟩ ⟨false⟩
      [scannerQ, scannerR, scannerP]).1.errors =
      [{ mechanism := "ConfigurationProfile", error := "permission denied" }] := by
  have hord : ([scannerQ, scannerR, scannerP] : List Scanner).Perm
      [scannerP, scannerQ, scannerR] := by
    have h1 : ([scannerQ, scannerR, scannerP] : List Scanner).Perm
        [scannerQ, scannerP, scannerR] := List.Perm.cons _ (List.Perm.swap _ _ _)
    exact h1.trans (List.Perm.swap _ _ _)
  have h := runScan_fault_isolation scannerP scannerQ scannerR "permission denied"
    [sampleItem] [sampleItem2] true ⟨false⟩ [scannerQ, scannerR, scannerP]
    rfl rfl rfl hord
  exact ⟨rfl, rfl, rfl, hord, h.1, h.2.1, h.2.2.1, h.2.2.2⟩

/-- C2: for a fixed probe collection with fixed outcomes, a parallel run
(under any completion order) and a sequential run produce the same
multiset of entries and the same multiset of errors, and each succeeding
probe's own entry list appears in both outputs in its internal order. -/
theorem runScan_mode_equivalence (scanners order : List Scanner) (ctx ctx' : Ctx)
    (hord : order.Perm scanners) :
    (RunScan ⟨scanners, true⟩ ctx order).1.items.Perm
      (RunScan ⟨scanners, false⟩ ctx' order).1.items ∧
    (RunScan ⟨scanners, true⟩ ctx order).1.errors.Perm
      (RunScan ⟨scanners, false⟩ ctx' order).1.errors ∧
    (∀ s ∈ scanners, ∀ its, s.scan = .ok its →
      its.Sublist (RunScan ⟨scanners, true⟩ ctx order).1.items ∧
      its.Sublist (RunScan ⟨scanners, false⟩ ctx' order).1.items) := by
  have hpar : (RunScan ⟨scanners, true⟩ ctx order).1.items = order.flatMap okItems ∧
      (RunScan ⟨scanners, true⟩ ctx order).1.errors = order.filterMap errOf := by
    constructor <;> simp [RunScan, mergeScanners_eq]
  have hseq : (RunScan ⟨scanners, false⟩ ctx' order).1.items = scanners.flatMap okItems ∧
      (RunScan ⟨scanners, false⟩ ctx' order).1.errors = scanners.filterMap errOf := by
    constructor <;> simp [RunScan, mergeScanners_eq]
  refine ⟨?_, ?_, ?_⟩
  · rw [hpar.1, hseq.1]
    exact hord.flatMap_right okItems
  · rw [hpar.2, hseq.2]
    exact hord.filterMap errOf
  · intro s hs its hits
    rw [hpar.1, hseq.1]
    constructor
    · simpa [okItems, hits] using okItems_sublist_flatMap s order (hord.mem_iff.mpr hs)
    · simpa [okItems, hits] using okItems_sublist_flatMap s scanners hs

/-- Witness for C2: the three concrete probes, completion order
[R, P, Q] against configured order [P, Q, R]. -/
theorem runScan_mode_equivalence_witness :
    ([scannerR, scannerP, scannerQ] : List Scanner).Perm [scannerP, scannerQ, scannerR] ∧
    (RunScan ⟨[scannerP, scannerQ, scannerR], true⟩ ⟨false⟩
        [scannerR, scannerP, scannerQ]).1.items.Perm
      (RunScan ⟨[scannerP, scannerQ, scannerR], false⟩ ⟨true⟩
        [scannerR, scannerP, scannerQ]).1.items ∧
    (RunScan ⟨[scannerP, scannerQ, scannerR], true⟩ ⟨false⟩
        [scannerR, scannerP, scannerQ]).1.errors.Perm
      (RunScan ⟨[scannerP, scannerQ, scannerR], false⟩ ⟨true⟩
        [scannerR, scannerP, scannerQ]).1.errors := by
  have hord : ([scannerR, scannerP, scannerQ] : List Scanner).Perm
      [scannerP, scannerQ, scannerR] := by
    have h1 : ([scannerR, scannerP, scannerQ] : List Scanner).Perm
        [scannerP, scannerR, scannerQ] := List.Perm.swap _ _ _
    exact h1.trans (List.Perm.cons _ (List.Perm.swap _ _ _))
  have h := runScan_mode_equivalence [scannerP, scannerQ, scannerR]
    [scannerR, scannerP, scannerQ] ⟨false⟩ ⟨true⟩ hord
  exact ⟨hord, h.1, h.2.1⟩

/-- C10: `RunScan` returns a nil call-level error for every probe
collection and context, its result does not depend on the cancellation
context it was handed (the body never reads it), and a run in which every
probe fails still yields a well-formed result with no entries and exactly
one `ScanError` per probe. -/
theorem runScan_never_errors (o : Orchestrator) (ctx ctx' : Ctx) (order : List Scanner)
    (hord : order.Perm o.scanners) :
    (RunScan o ctx order).2 = none ∧
    RunScan o ctx order = RunScan o ctx' order ∧
    ((∀ s ∈ o.scanners, ∃ e, s.scan = .error e) →
      (RunScan o ctx order).1.items = [] ∧
      (RunScan o ctx order).1.errors.length = o.scanners.length) := by
  refine ⟨rfl, rfl, fun hfail => ?_⟩
  have hl : (if o.parallel then order else o.scanners).Perm o.scanners := by
    by_cases hp : o.parallel <;> simp [hp, hord]
  have hfail' : ∀ s ∈ (if o.parallel then order else o.scanners), ∃ e, s.scan = .error e :=
    fun s hs => hfail s (hl.mem_iff.mp hs)
  constructor
  · simp only [RunScan, mergeScanners_eq]
    exact flatMap_okItems_nil _ hfail'
  · simp only [RunScan, mergeScanners_eq]
    rw [filterMap_errOf_length _ hfail']
    exact hl.length_eq

/-- Witness for C10: two failing probes, parallel mode, reversed
completion order, two distinct contexts. -/
theorem runScan_never_errors_witness :
    ([scannerP, ⟨"CronJob", Except.error "no crontab"⟩] : List Scanner).Perm
      [⟨"CronJob", Except.error "no crontab"⟩, scannerP] ∧
    (RunScan ⟨[⟨"CronJob", Except.error "no crontab"⟩, scannerP], true⟩ ⟨true⟩
      [scannerP, ⟨"CronJob", Except.error "no crontab"⟩]).2 = none ∧
    (RunScan ⟨[⟨"CronJob", Except.error "no crontab"⟩, scannerP], true⟩ ⟨true⟩
        [scannerP, ⟨"CronJob", Except.error "no crontab"⟩]).1.items = [] ∧
    (RunScan ⟨[⟨"CronJob", Except.error "no crontab"⟩, scannerP], true⟩ ⟨true⟩
        [scannerP, ⟨"CronJob", Except.error "no crontab"⟩]).1.errors.length = 2 := by
  have hord : ([scannerP, ⟨"CronJob", Except.error "no crontab"⟩] : List Scanner).Perm
      [⟨"CronJob", Except.error "no crontab"⟩, scannerP] := List.Perm.swap _ _ _
  have hfail : ∀ s ∈ ([⟨"CronJob", Except.error "no crontab"⟩, scannerP] :
      List Scanner), ∃ e, s.scan = .error e := by
    intro s hs
    rcases List.mem_cons.mp hs with h | h
    · exact ⟨"no crontab", by rw [h]⟩
    · rcases List.mem_cons.mp h with h' | h'
      · exact ⟨"permission denied", by rw [h']; rfl⟩
      · cases h'
  have h := runScan_never_errors ⟨[⟨"CronJob", Except.error "no crontab"⟩, scannerP], true⟩
    ⟨true⟩ ⟨false⟩ [scannerP, ⟨"CronJob", Except.error "no crontab"⟩] hord
  exact ⟨hord, h.1, (h.2.2 hfail).1, (h.2.2 hfail).2⟩

/-- C7 counterexample: a scan whose single probe returns one entry yields
a `RiskSummary` holding one key (the entry's pre-assessment zero-value
level `""`) with count 1 — not the empty mapping the claim states. -/
theorem runScan_riskSummary_nonempty :
    (RunScan ⟨[scannerQ], false⟩ ⟨false⟩ []).1.riskSummary = [("", 1)] ∧
    (RunScan ⟨[scannerQ], false⟩ ⟨false⟩ []).1.riskSummary ≠
      ([] : List (RiskLevel × Nat)) := by
  constructor
  · simp [RunScan, mergeScanners, scanStep, scannerQ, riskSummaryOf, bumpLevel,
      sampleItem, zeroRiskAssessment]
  · simp [RunScan, mergeScanners, scanStep, scannerQ, riskSummaryOf, bumpLevel,
      sampleItem, zeroRiskAssessment]

/-- C7 amended: `RunScan` populates `RiskSummary` with the count of
returned items per risk level as the items carry it at scan time (the
pre-assessment zero value, risk being assigned only afterwards), so the
map is empty exactly when no items were found; `TotalItems` equals the
length of the returned entry list. -/
theorem runScan_riskSummary_counts (o : Orchestrator) (ctx : Ctx) (order : List Scanner) :
    (RunScan o ctx order).1.totalItems = (RunScan o ctx order).1.items.length ∧
    (∀ lvl, summaryCount (RunScan o ctx order).1.riskSummary lvl =
      ((RunScan o ctx order).1.items.filter (fun it => it.risk.level == lvl)).length) ∧
    ((RunScan o ctx order).1.items = [] → (RunScan o ctx order).1.riskSummary = []) := by
  refine ⟨rfl, fun lvl => ?_, fun h => ?_⟩
  · simp only [RunScan, mergeScanners_eq]
    exact summaryCount_riskSummaryOf _ lvl
  · simp only [RunScan, mergeScanners_eq] at h ⊢
    rw [h]
    rfl

/-- Witness for the amended C7, at the one-probe one-entry scan: total
item count 1, and the summary maps the entry's zero-value level `""` to 1
while the entry list is non-empty. -/
theorem runScan_riskSummary_counts_witness :
    (RunScan ⟨[scannerQ], false⟩ ⟨false⟩ []).1.totalItems =
      (RunScan ⟨[scannerQ], false⟩ ⟨false⟩ []).1.items.length ∧
    summaryCount (RunScan ⟨[scannerQ], false⟩ ⟨false⟩ []).1.riskSummary "" = 1 := by
  have h := runScan_riskSummary_counts ⟨[scannerQ], false⟩ ⟨false⟩ []
  refine ⟨h.1, ?_⟩
  rw [h.2.1 ""]
  simp [RunScan, mergeScanners, scanStep, scannerQ, sampleItem, zeroRiskAssessment]

end PersistScan
